import Mathlib

/-!
Verification of the function-signature validation and inference stage of the
`stc` type checker (`typescript/file_analyzer/src/analyzer/function.rs`).

The development shallowly embeds the data model (`Type`, `TypeParam`, the
parameter patterns) and the operations of that file: the parameter-ordering
shape check, the generic-reference qualifier (`qualify_ref_type_args`), the
type-parameter back-substitution pass (`TypeParamHandler`'s `Fold<Type>`
implementation), the tuple-element widening step, the signature validator
(`validate` on `RFunction`) and the entry point (`visit_fn`).  External
collaborators (name resolution, assignability, expansion, statement-level
return inference, pattern validation) are modelled as oracle functions
returning `Except`, matching the collaborator contracts.  Machine state that
the Rust code mutates in place (the diagnostic sink, the mutation ledger, the
`declaring_fn` slot) is threaded explicitly through a `St` record.
-/

/-- Keyword type kinds (`TsKeywordTypeKind`), restricted to the kinds this
file inspects plus representative others. -/
inductive Kw : Type where
  | any | void | never | undef | null | str | num
deriving DecidableEq, Repr

/-- Entity names (`RTsEntityName`): a plain identifier or a qualified name. -/
inductive EName : Type where
  | ident (s : String)
  | qualified (l : EName) (r : String)
deriving DecidableEq, Repr

mutual

/-- The type representation (`ty::Type`), restricted to the variants the
analyzed file constructs or inspects.  `ref` carries the expansion-prevented
flag set by `prevent_expansion`.  Tuple elements and function parameters are
(span, type) pairs.  `tparamRef` is `Type::Param`. -/
inductive Ty : Type where
  | keyword (span : Nat) (kind : Kw)
  | ref (span : Nat) (name : EName) (args : Option (List Ty)) (prevented : Bool)
  | tuple (span : Nat) (elems : List (Nat × Ty))
  | fn (span : Nat) (params : List (Nat × Ty)) (tparams : Option (List TyParam)) (ret : Ty)
  | cls (span : Nat) (tparams : Option (List TyParam))
  | classInstance (span : Nat) (of : Ty) (args : Option (List Ty))
  | aliasTy (span : Nat) (tparams : Option (List TyParam)) (body : Ty)
  | iface (span : Nat) (tparams : Option (List TyParam))
  | tparamRef (p : TyParam)

/-- A type parameter (`TypeParam`): span, name, optional constraint, optional
default. -/
inductive TyParam : Type where
  | mk (span : Nat) (name : String) (constraint : Option Ty) (default : Option Ty)
end

def TyParam.span : TyParam → Nat
  | .mk s _ _ _ => s

def TyParam.name : TyParam → String
  | .mk _ n _ _ => n

def TyParam.constraint : TyParam → Option Ty
  | .mk _ _ c _ => c

def TyParam.default : TyParam → Option Ty
  | .mk _ _ _ d => d

/-- The span of a type (`Spanned::span()`). -/
def Ty.spanOf : Ty → Nat
  | .keyword s _ => s
  | .ref s _ _ _ => s
  | .tuple s _ => s
  | .fn s _ _ _ => s
  | .cls s _ => s
  | .classInstance s _ _ => s
  | .aliasTy s _ _ => s
  | .iface s _ => s
  | .tparamRef p => p.span

/-- The any keyword at a span (`Type::any(span)`). -/
def Ty.anyTy (span : Nat) : Ty := Ty.keyword span Kw.any

/-- Diagnostics (`Error`) emitted or propagated by this file.  `external`
stands for errors produced by collaborator calls. -/
inductive Err : Type where
  | ts1016 (span : Nat)
  | implicitAny (span : Nat)
  | returnRequired (span : Nat)
  | external (code : Nat)
deriving DecidableEq, Repr

/-- Parameter patterns (`RPat`), as distinguished by this file: an identifier
with its optionality flag, a rest pattern, or any other destructuring
pattern. -/
inductive RPat : Type where
  | ident (span : Nat) (name : String) (optional : Bool)
  | rest (span : Nat)
  | other (span : Nat)
deriving DecidableEq, Repr

/-- A raw parameter of an `RFunction`: the node span and its pattern. -/
structure RParamDecl : Type where
  span : Nat
  pat : RPat
deriving DecidableEq, Repr

/-- Whether a pattern is an optional identifier
(`RPat::Ident(RIdent { optional: true, .. })`). -/
def pOptionalIdent : RPat → Bool
  | .ident _ _ o => o
  | _ => false

/-- The patterns allowed after an optional parameter in the shape check:
optional identifiers and rest patterns. -/
def pAllowedAfterOptional : RPat → Bool
  | .ident _ _ true => true
  | .rest _ => true
  | _ => false

/-- The parameter-ordering shape check of `validate` (the `has_optional` loop):
after any optional identifier, every parameter that is neither an optional
identifier nor a rest pattern is reported as `TS1016` at its span. -/
def checkParamsGo (hasOptional : Bool) : List RParamDecl → List Err
  | [] => []
  | p :: rest =>
    (if hasOptional && !(pAllowedAfterOptional p.pat) then [Err.ts1016 p.span] else [])
      ++ checkParamsGo (hasOptional || pOptionalIdent p.pat) rest

/-- The parameter shape check, started with `has_optional = false`. -/
def checkParams (ps : List RParamDecl) : List Err :=
  checkParamsGo false ps

/-- Specification-shaped restatement of the ordering rule, for comparison with
the code-derived `checkParams`: walking the list while remembering the already
seen parameters, a parameter is diagnosed exactly when some earlier parameter
is an optional identifier and it is itself neither an optional identifier nor
a rest parameter. -/
def orderingDiagsSpecGo (seen : List RParamDecl) : List RParamDecl → List Err
  | [] => []
  | p :: rest =>
    (if (seen.any fun q => pOptionalIdent q.pat)
        && !(pOptionalIdent p.pat || (match p.pat with | .rest _ => true | _ => false))
     then [Err.ts1016 p.span] else [])
      ++ orderingDiagsSpecGo (seen ++ [p]) rest

/-- Specification-shaped ordering diagnostics for a whole list. -/
def orderingDiagsSpec (ps : List RParamDecl) : List Err :=
  orderingDiagsSpecGo [] ps

/-- The replacement step of `TypeParamHandler::fold`: after children have been
rewritten, an unqualified reference (`type_args = None`) whose name is a plain
identifier matching the name of one of `ps` (first match, as by the source's
`for` loop) becomes `Type::Param` of that parameter; every other shape is
returned unchanged. -/
def tphPost (ps : List TyParam) (t : Ty) : Ty :=
  match t with
  | Ty.ref s (.ident i) none prev =>
    match ps.find? (fun p => p.name = i) with
    | some p => Ty.tparamRef p
    | none => Ty.ref s (.ident i) none prev
  | t' => t'

mutual

/-- The fold of `TypeParamHandler` (its `Fold<Type>` impl) with `params = Some ps`: children
are rewritten first (`fold_children_with`), then the replacement step is
applied to the node (only `Ref` nodes can be affected, so the step is fused
into the `ref` arm; `tphFold_children_first` below records the equivalence
with the post-composition form). -/
def tphFold (ps : List TyParam) (t : Ty) : Ty :=
  match t with
  | .keyword s k => .keyword s k
  | .ref s n args prev => tphPost ps (Ty.ref s n (tphFoldOArgs ps args) prev)
  | .tuple s es => .tuple s (tphFoldPairs ps es)
  | .fn s params tps ret =>
    .fn s (tphFoldPairs ps params) (tphFoldOTps ps tps) (tphFold ps ret)
  | .cls s tps => .cls s (tphFoldOTps ps tps)
  | .classInstance s of args => .classInstance s (tphFold ps of) (tphFoldOArgs ps args)
  | .aliasTy s tps body => .aliasTy s (tphFoldOTps ps tps) (tphFold ps body)
  | .iface s tps => .iface s (tphFoldOTps ps tps)
  | .tparamRef p => .tparamRef (tphFoldParam ps p)
termination_by structural t

/-- Rewrite of a list of types. -/
def tphFoldList (ps : List TyParam) (ts : List Ty) : List Ty :=
  match ts with
  | [] => []
  | t :: rest => tphFold ps t :: tphFoldList ps rest
termination_by structural ts

/-- Rewrite of an optional type-argument list. -/
def tphFoldOArgs (ps : List TyParam) (args : Option (List Ty)) : Option (List Ty) :=
  match args with
  | none => none
  | some ts => some (tphFoldList ps ts)
termination_by structural args

/-- Rewrite of (span, type) pairs (tuple elements, function parameters). -/
def tphFoldPairs (ps : List TyParam) (es : List (Nat × Ty)) : List (Nat × Ty) :=
  match es with
  | [] => []
  | (s, t) :: rest => (s, tphFold ps t) :: tphFoldPairs ps rest
termination_by structural es

/-- Rewrite of a type parameter: its constraint and default are types and are
therefore rewritten by the derived fold. -/
def tphFoldParam (ps : List TyParam) (p : TyParam) : TyParam :=
  match p with
  | .mk s n c d => .mk s n (tphFoldOpt ps c) (tphFoldOpt ps d)
termination_by structural p

/-- Rewrite of a type-parameter list. -/
def tphFoldTps (ps : List TyParam) (l : List TyParam) : List TyParam :=
  match l with
  | [] => []
  | p :: rest => tphFoldParam ps p :: tphFoldTps ps rest
termination_by structural l

/-- Rewrite of an optional type-parameter list. -/
def tphFoldOTps (ps : List TyParam) (l : Option (List TyParam)) : Option (List TyParam) :=
  match l with
  | none => none
  | some l => some (tphFoldTps ps l)
termination_by structural l

/-- Rewrite of an optional type. -/
def tphFoldOpt (ps : List TyParam) (c : Option Ty) : Option Ty :=
  match c with
  | none => none
  | some t => some (tphFold ps t)
termination_by structural c
end

/-- The fold of `TypeParamHandler` including the `params : Option<&[TypeParam]>`
guard: with `params = None` the input is returned untouched (children
included), otherwise the rewrite runs. -/
def tphFoldO : Option (List TyParam) → Ty → Ty
  | none, t => t
  | some ps, t => tphFold ps t

/-- The pure children-rewriting part (`fold_children_with`): every type-typed
child is rewritten with the full fold, the node's own shape is kept. -/
def tphFoldChildren (ps : List TyParam) : Ty → Ty
  | .keyword s k => .keyword s k
  | .ref s n args prev => .ref s n (tphFoldOArgs ps args) prev
  | .tuple s es => .tuple s (tphFoldPairs ps es)
  | .fn s params tps ret =>
    .fn s (tphFoldPairs ps params) (tphFoldOTps ps tps) (tphFold ps ret)
  | .cls s tps => .cls s (tphFoldOTps ps tps)
  | .classInstance s of args => .classInstance s (tphFold ps of) (tphFoldOArgs ps args)
  | .aliasTy s tps body => .aliasTy s (tphFoldOTps ps tps) (tphFold ps body)
  | .iface s tps => .iface s (tphFoldOTps ps tps)
  | .tparamRef p => .tparamRef (tphFoldParam ps p)

/-- Whether a node has the only shape the replacement step can affect: an
unqualified (`type_args = None`) reference named by a plain identifier. -/
def isBareIdentRef : Ty → Bool
  | .ref _ (.ident _) none _ => true
  | _ => false

/-- Whether a type is exactly the `undefined` or `null` keyword (the match in
`visit_fn`'s tuple-widening loop). -/
def isUndefOrNull : Ty → Bool
  | .keyword _ Kw.undef => true
  | .keyword _ Kw.null => true
  | _ => false

/-- The element transformation of `visit_fn`'s widening loop: an element whose
type is exactly the `undefined` or `null` keyword gets `Type::any` at the
element's span; any other element is skipped (`continue`). -/
def tupleWidenElems : List (Nat × Ty) → List (Nat × Ty)
  | [] => []
  | (s, t) :: rest =>
    (match t with
     | .keyword _ Kw.undef => (s, Ty.anyTy s)
     | .keyword _ Kw.null => (s, Ty.anyTy s)
     | _ => (s, t)) :: tupleWidenElems rest

/-- The tuple-widening step of `visit_fn`: applied to the (already
back-substituted) return type; only a top-level tuple is rewritten. -/
def tupleWidenRet : Ty → Ty
  | .tuple s es => .tuple s (tupleWidenElems es)
  | t => t

/-- Whether a type is a direct type-parameter reference (`Type::Param`). -/
def isTParamRefTy : Ty → Bool
  | .tparamRef _ => true
  | _ => false

/-- The default type of a `Type::Param` node, if the type is one. -/
def tparamDefaultOf : Ty → Option Ty
  | .tparamRef p => p.default
  | _ => none

/-- A named-type reference (`Ref`): span, entity name, optional ordered type
arguments, and the expansion-prevented flag. -/
structure RefData : Type where
  span : Nat
  name : EName
  args : Option (List Ty)
  prevented : Bool

def RefData.toTy (r : RefData) : Ty :=
  Ty.ref r.span r.name r.args r.prevented

/-- Modelled from the spec: `prevent_expansion` (a collaborator whose body is
not part of the analyzed file) marks a reference as expansion-prevented, "a
flag consumed by a separate normalization stage"; on a reference we set the
flag, any other type is left unchanged. -/
def preventExpansion : Ty → Ty
  | .ref s n args _ => .ref s n args true
  | t => t

/-- The collaborators `validate` and `qualify_ref_type_args` call, per the
external-interface contracts: each is a function that either produces a value
or fails with an error.  `isBuiltin` is the analyzer's `is_builtin` flag. -/
structure Oracle : Type where
  validateTypeParams : List TyParam → Except Err (List TyParam)
  validateParams : List RParamDecl → Except Err (List (Nat × Ty))
  expand : Nat → Ty → Except Err Ty
  validateRetTy : Ty → Except Err Ty
  visitStmtsForReturn : Nat → Bool → Bool → Except Err (Option Ty)
  expandFully : Nat → Ty → Bool → Except Err Ty
  assign : Ty → Ty → Nat → Except Err Unit
  typeOfEntityName : Nat → EName → Option (List Ty) → Except Err Ty
  isBuiltin : Bool

/-- The type-parameter extraction of `qualify_ref_type_args`: only `Alias`,
`Interface` and `Class` with a present type-parameter list yield one; every
other resolved type short-circuits the qualifier. -/
def extractTypeParams : Ty → Option (List TyParam)
  | .aliasTy _ (some tps) _ => some tps
  | .iface _ (some tps) => some tps
  | .cls _ (some tps) => some tps
  | _ => none

/-- The fill loop of `qualify_ref_type_args` over the declared parameters past
`arg_cnt`: a parameter with a default contributes its default, one without
contributes `Type::any` at the parameter's span plus an implicit-any
diagnostic at that span. -/
def fillDefaults : List TyParam → List Ty × List Err
  | [] => ([], [])
  | p :: rest =>
    let t := fillDefaults rest
    match p.default with
    | some d => (d :: t.1, t.2)
    | none => (Ty.anyTy p.span :: t.1, Err.implicitAny p.span :: t.2)

/-- The qualifier `qualify_ref_type_args` (lines 199-248): resolve the reference, extract
declared type parameters, return unchanged when fully or over-supplied, else
mark expansion-prevented and — only when an argument list is present — append
defaults (or `Any` plus a diagnostic) for the omitted trailing parameters.
The reported diagnostics are returned alongside the result. -/
def qualifyRefTypeArgs (o : Oracle) (span : Nat) (r : RefData) :
    Except Err (RefData × List Err) :=
  match o.typeOfEntityName span r.name r.args with
  | .error e => .error e
  | .ok actual =>
    match extractTypeParams actual with
    | none => .ok (r, [])
    | some tps =>
      let argCnt := (r.args.map List.length).getD 0
      if tps.length ≤ argCnt then .ok (r, [])
      else
        let r2 : RefData := { r with prevented := true }
        match r2.args with
        | none => .ok (r2, [])
        | some args =>
          let fd := fillDefaults (tps.drop argCnt)
          .ok ({ r2 with args := some (args ++ fd.1) }, fd.2)

/-- Specification-shaped tail of filled-in type arguments: each omitted
parameter contributes its default, or `Any` at its span. -/
def defaultsTailSpec (tps : List TyParam) : List Ty :=
  tps.map fun p => p.default.getD (Ty.anyTy p.span)

/-- Specification-shaped diagnostics: one implicit-any diagnostic per omitted
parameter without a default, at that parameter's span. -/
def implicitAnyDiagsSpec (tps : List TyParam) : List Err :=
  tps.filterMap fun p =>
    match p.default with
    | some _ => none
    | none => some (Err.implicitAny p.span)

/-- The resolved generic declaration used in the concrete C2 runs: an alias
with type parameters `<T, U = Foo>`. -/
def c2ActualTy : Ty :=
  Ty.aliasTy 0
    (some [TyParam.mk 1 "T" none none,
           TyParam.mk 2 "U" none (some (Ty.ref 8 (.ident "Foo") none false))])
    (Ty.keyword 0 Kw.any)

/-- An oracle resolving every entity name to the `<T, U = Foo>` alias; the
other collaborators are inert. -/
def c2Oracle : Oracle where
  validateTypeParams := fun l => .ok l
  validateParams := fun _ => .ok []
  expand := fun _ t => .ok t
  validateRetTy := fun t => .ok t
  visitStmtsForReturn := fun _ _ _ => .ok none
  expandFully := fun _ t _ => .ok t
  assign := fun _ _ _ => .ok ()
  typeOfEntityName := fun _ _ _ => .ok c2ActualTy
  isBuiltin := false

/-- The mutation ledger (`mutations.for_fns`): an association list from
function node id to the entry's optional recorded return type. -/
abbrev Ledger := List (Nat × Option Ty)

def ledgerGet : Ledger → Nat → Option (Option Ty)
  | [], _ => none
  | (k2, v) :: rest, k => if k = k2 then some v else ledgerGet rest k

def ledgerUpsert : Ledger → Nat → Option Ty → Ledger
  | [], k, v => [(k, v)]
  | (k2, v2) :: rest, k, v =>
    if k = k2 then (k2, v) :: rest else (k2, v2) :: ledgerUpsert rest k v

/-- One ledger write as performed by `validate`:
`entry(node_id).or_default()` followed by a store into `ret_ty` only when the
entry's `ret_ty` is still `None` (write-once-if-absent). -/
def mutWriteRetTy (m : Ledger) (k : Nat) (t : Ty) : Ledger :=
  match ledgerGet m k with
  | some (some _) => m
  | _ => ledgerUpsert m k (some t)

/-- The write lifted over `if let Some(m) = &mut child.mutations`. -/
def mutWriteRetTyO : Option Ledger → Nat → Ty → Option Ledger
  | none, _, _ => none
  | some m, k, t => some (mutWriteRetTy m k t)

def mutLookupO : Option Ledger → Nat → Option (Option Ty)
  | none, _ => none
  | some m, k => ledgerGet m k

/-- The analyzer state this file mutates: the diagnostic sink (append-only),
the optional mutation ledger, and the scope's single-slot `declaring_fn`
marker. -/
structure St : Type where
  storage : List Err
  mutations : Option Ledger
  declaringFn : Option String

/-- A raw function node (`RFunction`), as far as this file inspects it:
span, node id, raw parameters, raw type parameters, optional return-type
annotation, body presence, and the async/generator flags. -/
structure RFunctionM : Type where
  span : Nat
  nodeId : Nat
  params : List RParamDecl
  typeParams : Option (List TyParam)
  returnType : Option Ty
  hasBody : Bool
  isAsync : Bool
  isGenerator : Bool

/-- The produced `ty::Function`. -/
structure FunctionTy : Type where
  span : Nat
  params : List (Nat × Ty)
  typeParams : Option (List TyParam)
  retTy : Ty

/-- The macro `try_opt!`: validate an optional node, propagating an error from the
present case. -/
def tryOpt {α : Type} : Option (Except Err α) → Except Err (Option α)
  | none => .ok none
  | some (.error e) => .error e
  | some (.ok v) => .ok (some v)

/-- The declared-return-type class wrap of `validate` (lines 82-93): a bare
class type used as a return annotation becomes an instance of that class. -/
def wrapClassAsInstance : Ty → Ty
  | .cls s tps => .classInstance s (.cls s tps) none
  | t => t

def isRefTy : Ty → Bool
  | .ref _ _ _ _ => true
  | _ => false

/-- The keyword test of the no-return branch (lines 135-149): `any`, `void`
and `never` annotations are exempt from the return-required diagnostic. -/
def isAnyVoidNever : Ty → Bool
  | .keyword _ Kw.any => true
  | .keyword _ Kw.void => true
  | .keyword _ Kw.never => true
  | _ => false

/-- Parameter-type expansion (lines 70-78), applied unless validating
builtins: each parameter's type is expanded at the parameter's span. -/
def expandParams (o : Oracle) : List (Nat × Ty) → Except Err (List (Nat × Ty))
  | [] => .ok []
  | (s, t) :: rest =>
    match o.expand s t with
    | .error e => .error e
    | .ok t2 =>
      match expandParams o rest with
      | .error e => .error e
      | .ok rest2 => .ok ((s, t2) :: rest2)

/-- The final steps of `validate` shared by every inference outcome (lines
172-190): the write-once-if-absent ledger write of the inferred return type
(only without an explicit annotation), flushing the locally collected
diagnostics, and assembling the `ty::Function` whose `ret_ty` is the declared
type when present, else the inferred one. -/
def finishValidate (f : RFunctionM) (params : List (Nat × Ty))
    (typeParams : Option (List TyParam)) (declared : Option Ty)
    (inferred : Ty) (localErrs : List Err) (st : St) :
    Except Err FunctionTy × St :=
  let st1 := if f.returnType.isNone
    then { st with mutations := mutWriteRetTyO st.mutations f.nodeId inferred }
    else st
  let st2 := { st1 with storage := st1.storage ++ localErrs }
  (.ok { span := f.span, params := params, typeParams := typeParams,
         retTy := declared.getD inferred }, st2)

/-- The qualification of an inferred return type (lines 112-117): an
inferred `Ref` is run through `qualify_ref_type_args` (at the function's
span) and rebuilt; any other inferred type passes through with no
diagnostics. -/
def qualifyInferred (o : Oracle) (span : Nat) : Ty → Except Err (Ty × List Err)
  | .ref s n args prev =>
    (match qualifyRefTypeArgs o span ⟨s, n, args, prev⟩ with
     | .error e => .error e
     | .ok (r, ds) => .ok (r.toTy, ds))
  | t => .ok (t, [])

/-- The span used by the no-return branch (lines 130-134): the declared
type's span when a declared type exists, else the function's span. -/
def declaredSpanOr (f : RFunctionM) : Option Ty → Nat
  | some d => d.spanOf
  | none => f.span

/-- The diagnostics of the no-return branch (lines 132-150): return-required
at the declared type's span unless the declared type is `any`, `void` or
`never`; nothing when no type was declared. -/
def noReturnDiags (dspan : Nat) : Option Ty → List Err
  | some d => if isAnyVoidNever d then [] else [Err.returnRequired dspan]
  | none => []

/-- The validator `validate` on `RFunction` (lines 27-191): parameter shape check, raw
type-parameter validation, parameter validation and expansion, declared
return-type normalization (class wrap, expansion prevention on references),
body-driven return-type inference through the collaborator, qualification of
an inferred bare reference, declared/inferred reconciliation, the no-return
branch with its diagnostic and `Void` result, and the ledger writes.  State
(sink, ledger) is threaded and also returned on the error paths, mirroring
in-place mutation. -/
def validateFn (o : Oracle) (f : RFunctionM) (st0 : St) :
    Except Err FunctionTy × St :=
  let st := { st0 with storage := st0.storage ++ checkParams f.params }
  match tryOpt (f.typeParams.map o.validateTypeParams) with
  | .error e => (.error e, st)
  | .ok typeParams =>
  match o.validateParams f.params with
  | .error e => (.error e, st)
  | .ok params0 =>
  match (if o.isBuiltin then Except.ok params0 else expandParams o params0) with
  | .error e => (.error e, st)
  | .ok params =>
  match tryOpt (f.returnType.map o.validateRetTy) with
  | .error e => (.error e, st)
  | .ok declared0 =>
  let declared1 := declared0.map wrapClassAsInstance
  let declared := declared1.map fun t => if isRefTy t then preventExpansion t else t
  match tryOpt (if f.hasBody
                then some (o.visitStmtsForReturn f.span f.isAsync f.isGenerator)
                else none) with
  | .error e => (.error e, st)
  | .ok none =>
    finishValidate f params typeParams declared (Ty.anyTy f.span) [] st
  | .ok (some none) =>
    let dspan := declaredSpanOr f declared
    let localErrs := noReturnDiags dspan declared
    let st2 := if f.returnType.isNone
      then { st with
             mutations := mutWriteRetTyO st.mutations f.nodeId (Ty.keyword dspan Kw.void) }
      else st
    finishValidate f params typeParams declared (Ty.keyword dspan Kw.void) localErrs st2
  | .ok (some (some irt0)) =>
    match qualifyInferred o f.span irt0 with
    | .error e => (.error e, st)
    | .ok (irt, qdiags) =>
    let st2 := { st with storage := st.storage ++ qdiags }
    match declared with
    | some d =>
      match o.expandFully f.span d true with
      | .error e => (.error e, st2)
      | .ok dexp =>
        match o.assign dexp irt irt.spanOf with
        | .error e => (.error e, st2)
        | .ok _ => finishValidate f params typeParams declared irt [] st2
    | none => finishValidate f params typeParams declared irt [] st2

/-- Entering `visit_fn`: with a name given, the `declaring_fn` slot is set to
it (the source asserts it was `None` on entry). -/
def stEnter (name : Option String) (st : St) : St :=
  match name with
  | some n => { st with declaringFn := some n }
  | none => st

/-- The entry point `visit_fn` (lines 251-338): set the `declaring_fn` slot, validate, run
the back-substitution pass over the return type with the function's own type
parameters, widen tuple elements, clear the slot (only on the success path,
as in the source), and return `Type::Function`; on a validation error the
error is reported to the sink and `Type::any(f.span)` is returned. -/
def visitFn (o : Oracle) (name : Option String) (f : RFunctionM) (st0 : St) :
    Ty × St :=
  match validateFn o f (stEnter name st0) with
  | (.error e, st1) => (Ty.anyTy f.span, { st1 with storage := st1.storage ++ [e] })
  | (.ok fnTy, st1) =>
    let ret1 := tphFoldO fnTy.typeParams fnTy.retTy
    let ret2 := tupleWidenRet ret1
    let st2 := match name with
      | some _ => { st1 with declaringFn := none }
      | none => st1
    (Ty.fn fnTy.span fnTy.params fnTy.typeParams ret2, st2)

/-- The keyword kind of a type, when it is a keyword type. -/
def kwKindOf : Ty → Option Kw
  | .keyword _ k => some k
  | _ => none

/-- An oracle whose collaborators succeed trivially and whose body inference
reports "no return statement" (`Some(None)`). -/
def noReturnOracle : Oracle where
  validateTypeParams := fun l => .ok l
  validateParams := fun _ => .ok []
  expand := fun _ t => .ok t
  validateRetTy := fun t => .ok t
  visitStmtsForReturn := fun _ _ _ => .ok none
  expandFully := fun _ t _ => .ok t
  assign := fun _ _ _ => .ok ()
  typeOfEntityName := fun _ _ _ => .error (Err.external 0)
  isBuiltin := false

/-- A function node with a body and the given return-type annotation. -/
def mkNoReturnFun (rt : Option Ty) : RFunctionM :=
  { span := 10, nodeId := 0, params := [], typeParams := none,
    returnType := rt, hasBody := true, isAsync := false, isGenerator := false }

/-- An initial analyzer state with an empty sink and an empty ledger. -/
def emptySt : St :=
  { storage := [], mutations := some [], declaringFn := none }

/-- An oracle whose raw type-parameter validation fails, driving `visit_fn`
into its failure path. -/
def failOracle : Oracle where
  validateTypeParams := fun _ => .error (Err.external 1)
  validateParams := fun _ => .ok []
  expand := fun _ t => .ok t
  validateRetTy := fun t => .ok t
  visitStmtsForReturn := fun _ _ _ => .ok none
  expandFully := fun _ t _ => .ok t
  assign := fun _ _ _ => .ok ()
  typeOfEntityName := fun _ _ _ => .error (Err.external 0)
  isBuiltin := false

/-- A named function declaration whose type-parameter list makes the failing
oracle abort validation. -/
def failingFun : RFunctionM :=
  { span := 20, nodeId := 3, params := [], typeParams := some [],
    returnType := none, hasBody := false, isAsync := false, isGenerator := false }

theorem pAllowed_eq_opt_or_rest (p : RPat) :
    pAllowedAfterOptional p
      = (pOptionalIdent p || (match p with | .rest _ => true | _ => false)) := by
  cases p with
  | ident s n o => cases o <;> rfl
  | rest s => rfl
  | other s => rfl

theorem checkParamsGo_eq_specGo (l : List RParamDecl) :
    ∀ (seen : List RParamDecl) (b : Bool),
      b = seen.any (fun q => pOptionalIdent q.pat) →
      checkParamsGo b l = orderingDiagsSpecGo seen l := by
  induction l with
  | nil => intro seen b _; rfl
  | cons p rest ih =>
    intro seen b hb
    show (if b && !(pAllowedAfterOptional p.pat) then [Err.ts1016 p.span] else [])
        ++ checkParamsGo (b || pOptionalIdent p.pat) rest = _
    rw [orderingDiagsSpecGo]
    rw [hb, pAllowed_eq_opt_or_rest]
    congr 1
    exact ih (seen ++ [p]) _ (by simp [List.any_append])

/-- Claim C3: the shape check reports exactly one `TS1016` diagnostic, at the
parameter's own span, for each parameter that follows some optional-identifier
parameter and is itself neither an optional identifier nor a rest parameter;
lists with no such parameter yield no ordering diagnostics.  Stated as
equality between the code-derived check and the specification-shaped
diagnostic list. -/
theorem checkParams_matches_ordering_spec (ps : List RParamDecl) :
    checkParams ps = orderingDiagsSpec ps :=
  checkParamsGo_eq_specGo ps [] false rfl

theorem tphFold_children_first (ps : List TyParam) (t : Ty) :
    tphFold ps t = tphPost ps (tphFoldChildren ps t) := by
  cases t with
  | keyword s k => rfl
  | ref s n args prev => rfl
  | tuple s es => rfl
  | fn s params tps ret => rfl
  | cls s tps => rfl
  | classInstance s of args => rfl
  | aliasTy s tps body => rfl
  | iface s tps => rfl
  | tparamRef p => rfl

theorem tphPost_id_of_not_bareIdentRef (ps : List TyParam) (t : Ty)
    (h : isBareIdentRef t = false) : tphPost ps t = t := by
  cases t with
  | ref s n args prev =>
    cases n with
    | ident i =>
      cases args with
      | none => simp [isBareIdentRef] at h
      | some l => rfl
    | qualified a b => rfl
  | keyword s k => rfl
  | tuple s es => rfl
  | fn s params tps ret => rfl
  | cls s tps => rfl
  | classInstance s of args => rfl
  | aliasTy s tps body => rfl
  | iface s tps => rfl
  | tparamRef p => rfl

/-- Claim C5: the back-substitution rewrite rewrites children before the node
itself; with an absent parameter list it returns the input unchanged; a `Ref`
with `type_args = None` whose plain-identifier name matches a parameter (first
match) becomes `Param` of that parameter; the replacement step leaves every
other node shape as produced by the children rewrite. -/
theorem tph_rewrite_spec (ps : List TyParam) (t : Ty) (s : Nat) (i : String)
    (prev : Bool) (p : TyParam) :
    tphFoldO none t = t
    ∧ tphFold ps t = tphPost ps (tphFoldChildren ps t)
    ∧ (ps.find? (fun q => q.name = i) = some p →
        tphFold ps (Ty.ref s (.ident i) none prev) = Ty.tparamRef p)
    ∧ (ps.find? (fun q => q.name = i) = none →
        tphFold ps (Ty.ref s (.ident i) none prev) = Ty.ref s (.ident i) none prev)
    ∧ (isBareIdentRef t = false → tphPost ps t = t) := by
  refine ⟨rfl, tphFold_children_first ps t, ?_, ?_, tphPost_id_of_not_bareIdentRef ps t⟩
  · intro h
    show tphPost ps (Ty.ref s (.ident i) (tphFoldOArgs ps none) prev) = _
    simp [tphFoldOArgs, tphPost, h]
  · intro h
    show tphPost ps (Ty.ref s (.ident i) (tphFoldOArgs ps none) prev) = _
    simp [tphFoldOArgs, tphPost, h]

/-- Witness for C5 at concrete inputs: parameter list `[T]`, the reference `T`
is replaced, the reference `U` is not, and a keyword node is not a candidate. -/
theorem tph_rewrite_spec_witness :
    tphFold [TyParam.mk 0 "T" none none] (Ty.ref 1 (.ident "T") none false)
        = Ty.tparamRef (TyParam.mk 0 "T" none none)
    ∧ tphFold [TyParam.mk 0 "T" none none] (Ty.ref 1 (.ident "U") none false)
        = Ty.ref 1 (.ident "U") none false
    ∧ tphPost [TyParam.mk 0 "T" none none] (Ty.keyword 2 Kw.any) = Ty.keyword 2 Kw.any :=
  ⟨(tph_rewrite_spec [TyParam.mk 0 "T" none none] (Ty.keyword 2 Kw.any) 1 "T" false
      (TyParam.mk 0 "T" none none)).2.2.1 rfl,
   (tph_rewrite_spec [TyParam.mk 0 "T" none none] (Ty.keyword 2 Kw.any) 1 "U" false
      (TyParam.mk 0 "T" none none)).2.2.2.1 rfl,
   (tph_rewrite_spec [TyParam.mk 0 "T" none none] (Ty.keyword 2 Kw.any) 1 "T" false
      (TyParam.mk 0 "T" none none)).2.2.2.2 rfl⟩

/-- Claim C10: a `Ref` with `type_args = None` whose name is a qualified
entity name is never replaced by a type-parameter reference: the rewrite
returns it unchanged for every parameter list. -/
theorem tph_qualified_ref_never_replaced (ps : List TyParam) (s : Nat)
    (q : EName) (r : String) (prev : Bool) :
    tphFold ps (Ty.ref s (.qualified q r) none prev)
      = Ty.ref s (.qualified q r) none prev := rfl

theorem tupleWidenElems_eq_map (es : List (Nat × Ty)) :
    tupleWidenElems es
      = es.map fun e => if isUndefOrNull e.2 then (e.1, Ty.anyTy e.1) else e := by
  induction es with
  | nil => rfl
  | cons e rest ih =>
    obtain ⟨s, t⟩ := e
    simp only [tupleWidenElems, List.map_cons, ih]
    congr 1
    cases t with
    | keyword sp k => cases k <;> rfl
    | ref sp n args prev => rfl
    | tuple sp es2 => rfl
    | fn sp params tps ret => rfl
    | cls sp tps => rfl
    | classInstance sp of args => rfl
    | aliasTy sp tps body => rfl
    | iface sp tps => rfl
    | tparamRef p => rfl

/-- Claim C4: the tuple-widening step replaces exactly those tuple elements
whose type is the `Undefined` or `Null` keyword by `Any` (at the element's
span), leaves every other element unchanged, and does not modify non-tuple
return types. -/
theorem tuple_widening_spec (t : Ty) :
    tupleWidenRet t
      = match t with
        | Ty.tuple s es =>
          Ty.tuple s (es.map fun e => if isUndefOrNull e.2 then (e.1, Ty.anyTy e.1) else e)
        | t' => t' := by
  cases t with
  | tuple s es => simpa [tupleWidenRet] using congrArg (Ty.tuple s) (tupleWidenElems_eq_map es)
  | keyword s k => rfl
  | ref s n args prev => rfl
  | fn s params tps ret => rfl
  | cls s tps => rfl
  | classInstance s of args => rfl
  | aliasTy s tps body => rfl
  | iface s tps => rfl
  | tparamRef p => rfl

/-- Claim C6 counterexample: with the parameter list `[T]` where `T`'s default
type is itself the bare reference `T` (as in a self-referential default), the
rewrite of the bare reference `T` is `Param T` with `T`'s original default,
but a second application also rewrites inside the cloned parameter's default,
so running the rewrite twice differs from running it once. -/
theorem tph_fold_not_idempotent :
    tphFold [TyParam.mk 0 "T" none (some (Ty.ref 2 (.ident "T") none false))]
        (tphFold [TyParam.mk 0 "T" none (some (Ty.ref 2 (.ident "T") none false))]
          (Ty.ref 1 (.ident "T") none false))
      ≠ tphFold [TyParam.mk 0 "T" none (some (Ty.ref 2 (.ident "T") none false))]
          (Ty.ref 1 (.ident "T") none false) := by
  intro h
  exact absurd (congrArg (fun t => (tparamDefaultOf t).map isTParamRefTy) h) (by decide)

/-- Claim C6 (amended): back-substitution is idempotent for every type tree
provided every parameter in the list is itself a fixed point of the rewrite
(its constraint and default contain no substitutable reference); without that
proviso the claim fails, see the counterexample. -/
theorem tph_fold_idempotent_of_params_fixed (ps : List TyParam)
    (hps : ∀ p ∈ ps, tphFoldParam ps p = p) (t : Ty) :
    tphFold ps (tphFold ps t) = tphFold ps t := by
  refine tphFold.induct ps
    (fun t => tphFold ps (tphFold ps t) = tphFold ps t)
    (fun p => tphFoldParam ps (tphFoldParam ps p) = tphFoldParam ps p)
    (fun c => tphFoldOpt ps (tphFoldOpt ps c) = tphFoldOpt ps c)
    (fun l => tphFoldOTps ps (tphFoldOTps ps l) = tphFoldOTps ps l)
    (fun l => tphFoldTps ps (tphFoldTps ps l) = tphFoldTps ps l)
    (fun es => tphFoldPairs ps (tphFoldPairs ps es) = tphFoldPairs ps es)
    (fun a => tphFoldOArgs ps (tphFoldOArgs ps a) = tphFoldOArgs ps a)
    (fun ts => tphFoldList ps (tphFoldList ps ts) = tphFoldList ps ts)
    ?_ ?_ ?_ ?_ ?_ ?_ ?_ ?_ ?_ ?_ ?_ ?_ ?_ ?_ ?_ ?_ ?_ ?_ ?_ ?_ ?_ ?_ t
  · intro s k; rfl
  · intro s n args prev ih
    cases n with
    | qualified a b =>
      simp only [tphFold, tphPost]
      rw [ih]
    | ident i =>
      cases args with
      | some ts =>
        have hts : tphFoldList ps (tphFoldList ps ts) = tphFoldList ps ts := by
          simpa [tphFoldOArgs] using ih
        simp only [tphFold, tphFoldOArgs, tphPost]
        rw [hts]
      | none =>
        cases hfind : ps.find? (fun p => p.name = i) with
        | some p =>
          have hp : tphFoldParam ps p = p := hps p (List.mem_of_find?_eq_some hfind)
          simp only [tphFold, tphFoldOArgs, tphPost, hfind]
          simp [hp]
        | none =>
          simp only [tphFold, tphFoldOArgs, tphPost, hfind]
  · intro s es ih; simp only [tphFold]; rw [ih]
  · intro s params tps ret ih1 ih2 ih3; simp only [tphFold]; rw [ih1, ih2, ih3]
  · intro s tps ih; simp only [tphFold]; rw [ih]
  · intro s of args ih1 ih2; simp only [tphFold]; rw [ih1, ih2]
  · intro s tps body ih1 ih2; simp only [tphFold]; rw [ih1, ih2]
  · intro s tps ih; simp only [tphFold]; rw [ih]
  · intro p ih; simp only [tphFold]; rw [ih]
  · intro span n c d ih1 ih2; simp only [tphFoldParam]; rw [ih1, ih2]
  · rfl
  · intro ts ih; simp only [tphFoldOArgs]; rw [ih]
  · rfl
  · intro s t1 rest ih1 ih2; simp only [tphFoldPairs]; rw [ih1, ih2]
  · rfl
  · intro l ih; simp only [tphFoldOTps]; rw [ih]
  · rfl
  · intro t1 ih; simp only [tphFoldOpt]; rw [ih]
  · rfl
  · intro t1 rest ih1 ih2; simp only [tphFoldList]; rw [ih1, ih2]
  · rfl
  · intro p rest ih1 ih2; simp only [tphFoldTps]; rw [ih1, ih2]

/-- Witness for the amended C6 at concrete inputs: the parameter `T` with no
constraint and no default is a fixed point of the rewrite, and the rewrite of
a tuple mentioning `T` is idempotent. -/
theorem tph_fold_idempotent_witness :
    tphFold [TyParam.mk 0 "T" none none]
        (tphFold [TyParam.mk 0 "T" none none]
          (Ty.tuple 3 [(4, Ty.ref 5 (.ident "T") none false), (6, Ty.keyword 7 Kw.num)]))
      = tphFold [TyParam.mk 0 "T" none none]
          (Ty.tuple 3 [(4, Ty.ref 5 (.ident "T") none false), (6, Ty.keyword 7 Kw.num)]) :=
  tph_fold_idempotent_of_params_fixed [TyParam.mk 0 "T" none none]
    (by intro p hp
        rw [List.mem_singleton] at hp
        subst hp
        rfl)
    (Ty.tuple 3 [(4, Ty.ref 5 (.ident "T") none false), (6, Ty.keyword 7 Kw.num)])

theorem fillDefaults_eq_spec (tps : List TyParam) :
    fillDefaults tps = (defaultsTailSpec tps, implicitAnyDiagsSpec tps) := by
  induction tps with
  | nil => rfl
  | cons p rest ih =>
    simp only [fillDefaults, ih, defaultsTailSpec, implicitAnyDiagsSpec,
      List.map_cons, List.filterMap_cons]
    cases hd : p.default with
    | some d => simp [hd]
    | none => simp [hd]

theorem defaultsTailSpec_length (tps : List TyParam) :
    (defaultsTailSpec tps).length = tps.length := by
  simp [defaultsTailSpec]

/-- Claim C2 (amended): when an argument list is present and under-supplied,
qualification appends one filled argument per omitted declared parameter (its
default, or `Any` at the parameter's span plus an implicit-any diagnostic),
marks the reference expansion-prevented, and the resulting argument count
equals the declared parameter count; a fully or over-supplied reference is
returned unchanged; but with zero explicit arguments (`type_args = None`) the
reference is returned with `type_args` still `None` and no diagnostics, only
marked expansion-prevented. -/
theorem qualify_ref_type_args_spec (o : Oracle) (span s : Nat) (n : EName)
    (l : List Ty) (prev : Bool) (actual : Ty) (tps : List TyParam)
    (hO : o.typeOfEntityName span n (some l) = .ok actual)
    (hT : extractTypeParams actual = some tps) :
    (l.length < tps.length →
      qualifyRefTypeArgs o span ⟨s, n, some l, prev⟩
        = .ok (⟨s, n, some (l ++ defaultsTailSpec (tps.drop l.length)), true⟩,
               implicitAnyDiagsSpec (tps.drop l.length))
      ∧ (l ++ defaultsTailSpec (tps.drop l.length)).length = tps.length)
    ∧ (tps.length ≤ l.length →
      qualifyRefTypeArgs o span ⟨s, n, some l, prev⟩ = .ok (⟨s, n, some l, prev⟩, []))
    ∧ (o.typeOfEntityName span n none = .ok actual → 0 < tps.length →
      qualifyRefTypeArgs o span ⟨s, n, none, prev⟩ = .ok (⟨s, n, none, true⟩, [])) := by
  refine ⟨?_, ?_, ?_⟩
  · intro hlt
    constructor
    · simp only [qualifyRefTypeArgs, hO, hT]
      rw [if_neg (by simpa using not_le.mpr hlt)]
      simp [fillDefaults_eq_spec]
    · have h1 : (defaultsTailSpec (tps.drop l.length)).length = tps.length - l.length := by
        rw [defaultsTailSpec_length, List.length_drop]
      rw [List.length_append, h1]
      omega
  · intro hle
    simp only [qualifyRefTypeArgs, hO, hT]
    rw [if_pos (by simpa using hle)]
  · intro hO2 hpos
    simp only [qualifyRefTypeArgs, hO2, hT]
    rw [if_neg (by simpa using List.ne_nil_of_length_pos hpos)]

/-- Claim C2 counterexample: for the declaration `<T, U = Foo>` and a
reference supplied with zero explicit type arguments (`type_args = None`),
the qualifier returns the reference with `type_args` still `None` and zero
diagnostics (only marked expansion-prevented), because the fill loop only
runs when an argument list is already present — not the claimed
`[Any, Foo]` with one implicit-any diagnostic. -/
theorem qualify_zero_args_counterexample :
    qualifyRefTypeArgs c2Oracle 9 ⟨3, .ident "G", none, false⟩
        = .ok (⟨3, .ident "G", none, true⟩, [])
    ∧ (⟨3, .ident "G", none, true⟩ : RefData).args
        ≠ some [Ty.anyTy 1, Ty.ref 8 (.ident "Foo") none false] :=
  ⟨rfl, by simp⟩

/-- Witness for the amended C2 at concrete inputs: `<T, U = Foo>` supplied
with `[Bar]` yields `[Bar, Foo]` with zero diagnostics; supplied with
`[Bar, Baz]` it is returned unchanged; supplied with `None` it keeps
`type_args = None`. -/
theorem qualify_ref_type_args_spec_witness :
    qualifyRefTypeArgs c2Oracle 9 ⟨3, .ident "G", some [Ty.ref 11 (.ident "Bar") none false], false⟩
        = .ok (⟨3, .ident "G",
                some [Ty.ref 11 (.ident "Bar") none false, Ty.ref 8 (.ident "Foo") none false],
                true⟩, [])
    ∧ qualifyRefTypeArgs c2Oracle 9
          ⟨3, .ident "G",
           some [Ty.ref 11 (.ident "Bar") none false, Ty.ref 12 (.ident "Baz") none false],
           false⟩
        = .ok (⟨3, .ident "G",
                some [Ty.ref 11 (.ident "Bar") none false, Ty.ref 12 (.ident "Baz") none false],
                false⟩, [])
    ∧ qualifyRefTypeArgs c2Oracle 9 ⟨3, .ident "G", none, false⟩
        = .ok (⟨3, .ident "G", none, true⟩, []) :=
  ⟨((qualify_ref_type_args_spec c2Oracle 9 3 (.ident "G")
      [Ty.ref 11 (.ident "Bar") none false] false c2ActualTy
      [TyParam.mk 1 "T" none none,
       TyParam.mk 2 "U" none (some (Ty.ref 8 (.ident "Foo") none false))]
      rfl rfl).1 (by decide)).1,
   (qualify_ref_type_args_spec c2Oracle 9 3 (.ident "G")
      [Ty.ref 11 (.ident "Bar") none false, Ty.ref 12 (.ident "Baz") none false] false c2ActualTy
      [TyParam.mk 1 "T" none none,
       TyParam.mk 2 "U" none (some (Ty.ref 8 (.ident "Foo") none false))]
      rfl rfl).2.1 (by decide),
   (qualify_ref_type_args_spec c2Oracle 9 3 (.ident "G")
      [] false c2ActualTy
      [TyParam.mk 1 "T" none none,
       TyParam.mk 2 "U" none (some (Ty.ref 8 (.ident "Foo") none false))]
      rfl rfl).2.2 rfl (by decide)⟩

theorem finishValidate_fst (f : RFunctionM) (ps : List (Nat × Ty))
    (tps : Option (List TyParam)) (declared : Option Ty) (inferred : Ty)
    (localErrs : List Err) (st : St) :
    (finishValidate f ps tps declared inferred localErrs st).1
      = .ok { span := f.span, params := ps, typeParams := tps,
              retTy := declared.getD inferred } := by
  unfold finishValidate
  split <;> rfl

theorem finishValidate_storage (f : RFunctionM) (ps : List (Nat × Ty))
    (tps : Option (List TyParam)) (declared : Option Ty) (inferred : Ty)
    (localErrs : List Err) (st : St) :
    (finishValidate f ps tps declared inferred localErrs st).2.storage
      = st.storage ++ localErrs := by
  unfold finishValidate
  split <;> rfl

theorem finishValidate_mutations (f : RFunctionM) (ps : List (Nat × Ty))
    (tps : Option (List TyParam)) (declared : Option Ty) (inferred : Ty)
    (localErrs : List Err) (st : St) :
    (finishValidate f ps tps declared inferred localErrs st).2.mutations
      = if f.returnType.isNone
        then mutWriteRetTyO st.mutations f.nodeId inferred
        else st.mutations := by
  unfold finishValidate
  split <;> simp_all

/-- Claim C1 counterexample: a function with a body, no return statement and
declared return type `string` gets the return-required diagnostic, but the
returned `ty::Function`'s `ret_ty` is the declared `string`, not `Void` — the
assembled `ret_ty` is `declared_ret_ty.unwrap_or(inferred)`, so `Void` only
results when no type was declared. -/
theorem validate_noreturn_declared_counterexample :
    (validateFn noReturnOracle (mkNoReturnFun (some (Ty.keyword 7 Kw.str))) emptySt).1
        = .ok { span := 10, params := [], typeParams := none,
                retTy := Ty.keyword 7 Kw.str }
    ∧ (validateFn noReturnOracle (mkNoReturnFun (some (Ty.keyword 7 Kw.str))) emptySt).2.storage
        = [Err.returnRequired 7]
    ∧ Ty.keyword 7 Kw.str ≠ Ty.keyword 7 Kw.void :=
  ⟨rfl, rfl, fun h => absurd (congrArg kwKindOf h) (by decide)⟩

/-- Claim C1 (amended): when body inference yields "no return statement", a
non-fatal return-required diagnostic is emitted exactly when a declared type
exists that is not `Any`, `Void` or `Never` (none otherwise), and the
returned `ty::Function`'s `ret_ty` is the declared type when one was
declared, and `Void` when none was. -/
theorem validate_noreturn_spec (o : Oracle) (f : RFunctionM) (st : St)
    (tps : Option (List TyParam)) (ps0 ps : List (Nat × Ty)) (d0 : Option Ty)
    (declared : Option Ty)
    (hTP : tryOpt (f.typeParams.map o.validateTypeParams) = .ok tps)
    (hP : o.validateParams f.params = .ok ps0)
    (hE : (if o.isBuiltin then Except.ok ps0 else expandParams o ps0) = .ok ps)
    (hR : tryOpt (f.returnType.map o.validateRetTy) = .ok d0)
    (hB : f.hasBody = true)
    (hI : o.visitStmtsForReturn f.span f.isAsync f.isGenerator = .ok none)
    (hD : declared
      = (d0.map wrapClassAsInstance).map fun t => if isRefTy t then preventExpansion t else t) :
    (validateFn o f st).1
        = .ok { span := f.span, params := ps, typeParams := tps,
                retTy := declared.getD (Ty.keyword (declaredSpanOr f declared) Kw.void) }
    ∧ (validateFn o f st).2.storage
        = st.storage ++ checkParams f.params
            ++ noReturnDiags (declaredSpanOr f declared) declared := by
  constructor
  · simp only [validateFn, hTP, hP, hE, hR, hB, hI, if_true]
    simp only [tryOpt]
    rw [← hD, finishValidate_fst]
  · simp only [validateFn, hTP, hP, hE, hR, hB, hI, if_true]
    simp only [tryOpt]
    rw [← hD, finishValidate_storage]
    split <;> rfl

/-- Witness for the amended C1 at concrete inputs: with declared type
`string` the diagnostic fires and `ret_ty` is `string`; with declared type
`any` no diagnostic; with no declared type `ret_ty` is `Void` at the
function's span and no diagnostic. -/
theorem validate_noreturn_spec_witness :
    ((validateFn noReturnOracle (mkNoReturnFun (some (Ty.keyword 7 Kw.str))) emptySt).1
        = .ok { span := 10, params := [], typeParams := none,
                retTy := Ty.keyword 7 Kw.str }
      ∧ (validateFn noReturnOracle (mkNoReturnFun (some (Ty.keyword 7 Kw.str))) emptySt).2.storage
        = [] ++ [] ++ [Err.returnRequired 7])
    ∧ ((validateFn noReturnOracle (mkNoReturnFun (some (Ty.keyword 7 Kw.any))) emptySt).2.storage
        = [] ++ [] ++ [])
    ∧ ((validateFn noReturnOracle (mkNoReturnFun none) emptySt).1
        = .ok { span := 10, params := [], typeParams := none,
                retTy := Ty.keyword 10 Kw.void }) :=
  ⟨validate_noreturn_spec noReturnOracle (mkNoReturnFun (some (Ty.keyword 7 Kw.str))) emptySt
      none [] [] (some (Ty.keyword 7 Kw.str)) (some (Ty.keyword 7 Kw.str))
      rfl rfl rfl rfl rfl rfl rfl,
   (validate_noreturn_spec noReturnOracle (mkNoReturnFun (some (Ty.keyword 7 Kw.any))) emptySt
      none [] [] (some (Ty.keyword 7 Kw.any)) (some (Ty.keyword 7 Kw.any))
      rfl rfl rfl rfl rfl rfl rfl).2,
   (validate_noreturn_spec noReturnOracle (mkNoReturnFun none) emptySt
      none [] [] none none
      rfl rfl rfl rfl rfl rfl rfl).1⟩

theorem ledgerGet_upsert_self (m : Ledger) (k : Nat) (v : Option Ty) :
    ledgerGet (ledgerUpsert m k v) k = some v := by
  induction m with
  | nil => simp [ledgerUpsert, ledgerGet]
  | cons e rest ih =>
    obtain ⟨k2, v2⟩ := e
    by_cases h : k = k2
    · simp [ledgerUpsert, h, ledgerGet]
    · simp [ledgerUpsert, h, ledgerGet, ih]

theorem ledgerGet_upsert_ne (m : Ledger) (k k2 : Nat) (v : Option Ty)
    (h : k ≠ k2) : ledgerGet (ledgerUpsert m k2 v) k = ledgerGet m k := by
  induction m with
  | nil => simp [ledgerUpsert, ledgerGet, h]
  | cons e rest ih =>
    obtain ⟨k3, v3⟩ := e
    by_cases h2 : k2 = k3
    · subst h2
      simp [ledgerUpsert, ledgerGet, h]
    · by_cases h3 : k = k3
      · simp [ledgerUpsert, h2, ledgerGet, h3]
      · simp [ledgerUpsert, h2, ledgerGet, h3, ih]

/-- A recorded return type survives any later write-once write. -/
theorem mutWrite_preserves (m : Ledger) (k k2 : Nat) (t v : Ty)
    (h : ledgerGet m k = some (some t)) :
    ledgerGet (mutWriteRetTy m k2 v) k = some (some t) := by
  unfold mutWriteRetTy
  by_cases hk : k = k2
  · subst hk
    rw [h]
    exact h
  · cases hg : ledgerGet m k2 with
    | none => rw [ledgerGet_upsert_ne m k k2 _ hk]; exact h
    | some w =>
      cases w with
      | none => rw [ledgerGet_upsert_ne m k k2 _ hk]; exact h
      | some u => exact h

theorem mutWriteO_preserves (mo : Option Ledger) (k k2 : Nat) (t v : Ty)
    (h : mutLookupO mo k = some (some t)) :
    mutLookupO (mutWriteRetTyO mo k2 v) k = some (some t) := by
  cases mo with
  | none => simp [mutLookupO] at h
  | some m =>
    simpa [mutLookupO, mutWriteRetTyO] using
      mutWrite_preserves m k k2 t v (by simpa [mutLookupO] using h)

/-- Every path through `validate` either leaves the ledger untouched, or (only
without a return-type annotation) performs one or two write-once writes keyed
by the function's node id. -/
theorem validateFn_mutations_shape (o : Oracle) (f : RFunctionM) (st : St) :
    (validateFn o f st).2.mutations = st.mutations
    ∨ (f.returnType = none
        ∧ ((∃ v, (validateFn o f st).2.mutations = mutWriteRetTyO st.mutations f.nodeId v)
           ∨ (∃ v w, (validateFn o f st).2.mutations
               = mutWriteRetTyO (mutWriteRetTyO st.mutations f.nodeId v) f.nodeId w))) := by
  cases h1 : tryOpt (f.typeParams.map o.validateTypeParams) with
  | error e => left; simp only [validateFn, h1]
  | ok tps =>
  cases h2 : o.validateParams f.params with
  | error e => left; simp only [validateFn, h1, h2]
  | ok ps0 =>
  cases h3 : (if o.isBuiltin then Except.ok ps0 else expandParams o ps0) with
  | error e => left; simp only [validateFn, h1, h2, h3]
  | ok ps =>
  cases h4 : tryOpt (f.returnType.map o.validateRetTy) with
  | error e => left; simp only [validateFn, h1, h2, h3, h4]
  | ok d0 =>
  cases h5 : tryOpt (if f.hasBody
      then some (o.visitStmtsForReturn f.span f.isAsync f.isGenerator) else none) with
  | error e => left; simp only [validateFn, h1, h2, h3, h4, h5]
  | ok inf0 =>
  cases inf0 with
  | none =>
    cases hrt : f.returnType with
    | some rt =>
      left
      simp only [validateFn, h1, h2, h3, h4, h5, finishValidate_mutations]
      rw [hrt]
      simp
    | none =>
      right
      refine ⟨rfl, .inl ⟨Ty.anyTy f.span, ?_⟩⟩
      simp only [validateFn, h1, h2, h3, h4, h5, finishValidate_mutations]
      rw [hrt]
      simp
  | some inf1 =>
  cases inf1 with
  | none =>
    cases hrt : f.returnType with
    | some rt =>
      left
      simp only [validateFn, h1, h2, h3, h4, h5, finishValidate_mutations]
      rw [hrt]
      simp
    | none =>
      right
      refine ⟨rfl, .inr
        ⟨Ty.keyword (declaredSpanOr f
            ((d0.map wrapClassAsInstance).map fun t =>
              if isRefTy t then preventExpansion t else t)) Kw.void,
         Ty.keyword (declaredSpanOr f
            ((d0.map wrapClassAsInstance).map fun t =>
              if isRefTy t then preventExpansion t else t)) Kw.void, ?_⟩⟩
      simp only [validateFn, h1, h2, h3, h4, h5, finishValidate_mutations]
      rw [hrt]
      simp
  | some irt0 =>
  cases h6 : qualifyInferred o f.span irt0 with
  | error e => left; simp only [validateFn, h1, h2, h3, h4, h5, h6]
  | ok pr =>
  obtain ⟨irt, qdiags⟩ := pr
  cases hd : ((d0.map wrapClassAsInstance).map fun t =>
      if isRefTy t then preventExpansion t else t) with
  | none =>
    cases hrt : f.returnType with
    | some rt =>
      left
      simp only [validateFn, h1, h2, h3, h4, h5, h6, hd, finishValidate_mutations]
      rw [hrt]
      simp
    | none =>
      right
      refine ⟨rfl, .inl ⟨irt, ?_⟩⟩
      simp only [validateFn, h1, h2, h3, h4, h5, h6, hd, finishValidate_mutations]
      rw [hrt]
      simp
  | some d =>
    cases h7 : o.expandFully f.span d true with
    | error e =>
      left
      simp only [validateFn, h1, h2, h3, h4, h5, h6, hd, h7]
    | ok dexp =>
    cases h8 : o.assign dexp irt irt.spanOf with
    | error e =>
      left
      simp only [validateFn, h1, h2, h3, h4, h5, h6, hd, h7, h8]
    | ok u =>
    cases hrt : f.returnType with
    | some rt =>
      left
      simp only [validateFn, h1, h2, h3, h4, h5, h6, hd, h7, h8, finishValidate_mutations]
      rw [hrt]
      simp
    | none =>
      right
      refine ⟨rfl, .inl ⟨irt, ?_⟩⟩
      simp only [validateFn, h1, h2, h3, h4, h5, h6, hd, h7, h8, finishValidate_mutations]
      rw [hrt]
      simp

/-- Claim C7: a return-type ledger entry is written only when the function has
no explicit return-type annotation (with an annotation the ledger is left
untouched), and a return type already recorded for any node is never
overwritten by the writes `validate` performs (write-once-if-absent: the
first recorded return type wins). -/
theorem ledger_write_once (o : Oracle) (f : RFunctionM) (st : St) :
    (f.returnType.isSome → (validateFn o f st).2.mutations = st.mutations)
    ∧ (∀ k t, mutLookupO st.mutations k = some (some t) →
        mutLookupO ((validateFn o f st).2.mutations) k = some (some t)) := by
  have hshape := validateFn_mutations_shape o f st
  constructor
  · intro hsome
    rcases hshape with h | ⟨hnone, _⟩
    · exact h
    · rw [hnone] at hsome
      simp at hsome
  · intro k t h
    rcases hshape with hs | ⟨_, ⟨v, hs⟩ | ⟨v, w, hs⟩⟩
    · rw [hs]; exact h
    · rw [hs]; exact mutWriteO_preserves _ _ _ _ _ h
    · rw [hs]; exact mutWriteO_preserves _ _ _ _ _ (mutWriteO_preserves _ _ _ _ _ h)

/-- Witness for C7 at concrete inputs: with an annotation the ledger is
unchanged; and a previously recorded return type for the node survives a
validation that writes (no annotation, no-return body). -/
theorem ledger_write_once_witness :
    (validateFn noReturnOracle (mkNoReturnFun (some (Ty.keyword 7 Kw.str))) emptySt).2.mutations
        = emptySt.mutations
    ∧ mutLookupO ((validateFn noReturnOracle (mkNoReturnFun none)
          { storage := [], mutations := some [(0, some (Ty.keyword 1 Kw.num))],
            declaringFn := none }).2.mutations) 0
        = some (some (Ty.keyword 1 Kw.num)) :=
  ⟨(ledger_write_once noReturnOracle (mkNoReturnFun (some (Ty.keyword 7 Kw.str))) emptySt).1 rfl,
   (ledger_write_once noReturnOracle (mkNoReturnFun none)
      { storage := [], mutations := some [(0, some (Ty.keyword 1 Kw.num))],
        declaringFn := none }).2 0 (Ty.keyword 1 Kw.num) rfl⟩

/-- Claim C8 (code bug): on entry the slot is `None` and `visit_fn` sets it to
the given name, but on the failure path the clearing statement is inside the
`try` block after the fallible validation, so when validation fails the slot
is left set after `visit_fn` returns (only the success path clears it).  A
later named-function validation would then trip the entry assertion. -/
theorem declaring_fn_not_cleared_on_failure :
    emptySt.declaringFn = none
    ∧ (visitFn failOracle (some "f") failingFun emptySt).2.declaringFn = some "f"
    ∧ (visitFn failOracle (some "f") failingFun emptySt).1 = Ty.anyTy 20
    ∧ (visitFn noReturnOracle (some "g") (mkNoReturnFun none) emptySt).2.declaringFn = none :=
  ⟨rfl, rfl, rfl, rfl⟩

/-- Claim C9: `visit_fn` never fails outward: whenever its fallible pipeline
(the signature validation; back-substitution and widening are infallible)
fails with an error, that error is appended to the diagnostic sink and
`Type::any` at the function's span is returned. -/
theorem visit_fn_reports_and_returns_any (o : Oracle) (name : Option String)
    (f : RFunctionM) (st : St) (e : Err) (st1 : St)
    (h : validateFn o f (stEnter name st) = (.error e, st1)) :
    visitFn o name f st = (Ty.anyTy f.span, { st1 with storage := st1.storage ++ [e] }) := by
  unfold visitFn
  rw [h]

/-- Witness for C9 at concrete inputs: the failing validation's error is
reported and the function's type is `any`. -/
theorem visit_fn_reports_and_returns_any_witness :
    visitFn failOracle none failingFun emptySt
      = (Ty.anyTy 20,
         { storage := [Err.external 1], mutations := some [], declaringFn := none }) :=
  visit_fn_reports_and_returns_any failOracle none failingFun emptySt (Err.external 1)
    { storage := [], mutations := some [], declaringFn := none } rfl
